import Mathlib

/-!
Shallow embedding of the MobilityOne worker backend (Python sources under
`src/`) together with theorems settling the specification claims.

Conventions of the embedding:
* Python dict payloads become Lean structures; JSON values become the
  inductive `JsonVal`.
* The Redis KV store operations touched by a function become explicit
  pure state passing (lists for Redis lists, assoc functions for string
  keys).
* Wall-clock time (`asyncio.get_event_loop().time()`) is passed in as a
  `Nat` parameter `now`.
* External services (OpenAI embeddings and completions, the tiktoken
  `cl100k_base` encoder, md5) are opaque third-party components; they are
  modelled as explicit function parameters of the embedded code, so every
  theorem quantifies over them (or instantiates them in a witness).
* Fallible calls return `Except`/`Option` instead of raising.
-/

/-- Minimal JSON value universe: shape of what `orjson.loads` /
`response.json()` return. -/
inductive JsonVal where
  | null : JsonVal
  | bool : Bool → JsonVal
  | num : Int → JsonVal
  | str : String → JsonVal
  | arr : List JsonVal → JsonVal
  | obj : List (String × JsonVal) → JsonVal

namespace MQueue

/-- `services/queue.py`: an outbound payload `{to, text, cid, attempts}`.
`error`/`failedAt` are the fields `schedule_retry` adds before a DLQ push
(absent = not yet set). -/
structure Payload where
  to_ : String
  text : String
  cid : Option String
  attempts : Nat
  error : Option String := none
  failedAt : Option Nat := none
deriving DecidableEq, Repr

/-- Result of `QueueService.schedule_retry`: either the payload is pushed
to the outbound DLQ list (`dlq:outbound`), or it is added to the retry
sorted set with an absolute score. -/
inductive RetryOutcome where
  | dlq (entry : Payload)
  | scheduled (entry : Payload) (score : Nat)
deriving DecidableEq, Repr

/-- `QueueService.schedule_retry` (src/services/queue.py lines 79-106):
increment `attempts`; at ≥ 5 augment the payload with
`error = "Max retries exceeded"` and `failed_at` and push it to the
outbound DLQ; otherwise zadd to the retry set with score
`now + 2 ** attempts` (attempts already incremented). -/
def scheduleRetry (now : Nat) (p : Payload) : RetryOutcome :=
  let attempts := p.attempts + 1
  if attempts ≥ 5 then
    .dlq { p with error := some "Max retries exceeded", failedAt := some now }
  else
    .scheduled { p with attempts := attempts } (now + 2 ^ attempts)

/-- The delay (score − now) `schedule_retry` assigns to a payload whose
stored counter is `a`, when it schedules at all. -/
def retryDelay (a : Nat) : Option Nat :=
  match scheduleRetry 0 { to_ := "", text := "", cid := none, attempts := a } with
  | .dlq _ => none
  | .scheduled _ score => some score

end MQueue

namespace Ctx

/-- Configuration constants of `services/context.py`. -/
def MAX_TOKENS : Nat := 2500

def TARGET_TOKENS : Nat := 1500

def MAX_CONTENT_SIZE : Nat := 15000

/-- A stored conversation message (`services/context.py` `add_message`
always stores `content` as a string, `""` for Python `None`). `toolCalls`
is the `str(...)` rendering used by `_count_tokens`; `none` = the key is
absent. -/
structure Msg where
  role : String
  content : String
  toolCalls : Option String := none
  toolCallId : Option String := none
  name : Option String := none
deriving DecidableEq, Repr

/-- The text `_count_tokens` feeds to the tokenizer for one message:
`content` (or "") with `str(tool_calls)` appended when present. -/
def msgText (m : Msg) : String :=
  match m.toolCalls with
  | none => m.content
  | some t => m.content ++ t

/-- `ContextService._count_tokens` for one message: tokenizer length of
the message text plus the fixed 4-token overhead. `enc` is the opaque
`cl100k_base` encoder length. -/
def msgTokens (enc : String → Nat) (m : Msg) : Nat :=
  enc (msgText m) + 4

/-- `ContextService._count_tokens` over a message list. -/
def countTokens (enc : String → Nat) (ms : List Msg) : Nat :=
  (ms.map (msgTokens enc)).sum

/-- The backwards walk of `_enforce_token_limit` (lines 119-125), phrased
over the reversed list: number of trailing messages accepted before the
first one whose inclusion would push the kept total over `TARGET_TOKENS`.
-/
def acceptedFromEnd (enc : String → Nat) (kept : Nat) : List Msg → Nat
  | [] => 0
  | m :: rest =>
    if kept + msgTokens enc m > TARGET_TOKENS then 0
    else acceptedFromEnd enc (kept + msgTokens enc m) rest + 1

/-- The split index computed by `_enforce_token_limit`: `i + 1` for the
first index `i` (walking from the end) whose inclusion would exceed
`TARGET_TOKENS`, or `0` when the walk never breaks. Walking from the end
accepting `a` messages leaves the break at index `len − a − 1`, so the
split is `len − a`. -/
def computeSplit (enc : String → Nat) (h : List Msg) : Nat :=
  h.length - acceptedFromEnd enc 0 h.reverse

/-- The single summary system message `_enforce_token_limit` left-pushes
after trimming. -/
def summaryMsg (s : String) : Msg :=
  { role := "system", content := "SAŽETAK RANIJEG RAZGOVORA: " ++ s }

/-- `ContextService._enforce_token_limit` as a pure transformer of the
per-sender list. `summarize` is the opaque LLM summarizer
(`_generate_summary`), returning `none` on failure. Mirrors the source:
an early return when the list is shorter than 5 entries, an early return
when within budget, `lpop` (drop the head) when the split is < 2,
`ltrim split -1` when summarization fails, and trim + `lpush` of the
summary message otherwise. -/
def enforceTokenLimit (enc : String → Nat) (summarize : List Msg → Option String)
    (h : List Msg) : List Msg :=
  if h.length < 5 then h
  else if countTokens enc h ≤ MAX_TOKENS then h
  else
    let split := computeSplit enc h
    if split < 2 then h.tail
    else
      match summarize (h.take split) with
      | none => h.drop split
      | some s => summaryMsg s :: h.drop split

/-- The truncation envelope of `add_message` step 2: the `orjson.dumps`
rendering of `{"system_note": ..., "preview": first 1000 chars + " ...
(truncated)"}` (JSON-escaping of the preview elided). -/
def overflowEnvelope (contentStr : String) : String :=
  "\x7b\"system_note\":\"Data truncated for performance/safety.\",\"preview\":\""
    ++ (contentStr.take 1000) ++ "... (truncated)\"\x7d"

/-- Steps 1-2 of `add_message`: serialize (`none` = Python `None` →
`""`; non-strings arrive already serialized) and apply the oversize
gatekeeper, yielding the message dict that is `rpush`ed. -/
def mkStoredMsg (role : String) (content : Option String)
    (toolCalls : Option String) (toolCallId : Option String)
    (name : Option String) : Msg :=
  let contentStr := content.getD ""
  let contentStr :=
    if contentStr.length > MAX_CONTENT_SIZE then overflowEnvelope contentStr
    else contentStr
  { role := role, content := contentStr, toolCalls := toolCalls,
    toolCallId := toolCallId, name := name }

/-- `ContextService.add_message` as a pure transformer of the per-sender
list: build the stored message, append it (`rpush` + `expire`), and
enforce the token budget. -/
def addMessage (enc : String → Nat) (summarize : List Msg → Option String)
    (h : List Msg) (role : String) (content : Option String)
    (toolCalls : Option String := none) (toolCallId : Option String := none)
    (name : Option String := none) : List Msg :=
  enforceTokenLimit enc summarize (h ++ [mkStoredMsg role content toolCalls toolCallId name])

/-- The token cost the summary message would add: 0 when summarization
fails (the code then trims without a summary). -/
def summaryBudget (enc : String → Nat) (summarize : List Msg → Option String)
    (h : List Msg) : Nat :=
  match summarize (h.take (computeSplit enc h)) with
  | none => 0
  | some s => msgTokens enc (summaryMsg s)

end Ctx

namespace Bridge

/-- Circuit-breaker state of `OpenAPIGateway` (`_circuit_open`,
`_failure_count`). -/
structure Breaker where
  failureCount : Nat := 0
  circuitOpen : Bool := false
deriving DecidableEq, Repr

/-- `OpenAPIGateway._record_failure`: increment the counter; open the
circuit when the incremented counter exceeds 5 (the 30 s reset task is a
timer outside the pure model). -/
def recordFailure (st : Breaker) : Breaker :=
  let c := st.failureCount + 1
  { failureCount := c, circuitOpen := st.circuitOpen || decide (c > 5) }

/-- One HTTP attempt as seen by `execute_tool`: either a response with a
status code and a body (`body = none` ⇔ `response.json()` raises, i.e. an
empty or non-JSON body), or an `httpx.RequestError`. -/
inductive Attempt where
  | response (status : Nat) (body : Option JsonVal)
  | transportError

/-- Python dict `{"error": True, "message": msg}`. -/
def errorResult (msg : String) : JsonVal :=
  .obj [("error", .bool true), ("message", .str msg)]

/-- Python dict `{"status": "success", "data": None}`. -/
def successNull : JsonVal :=
  .obj [("status", .str "success"), ("data", .null)]

/-- Result of one execution: the returned dict, the breaker state after,
and the number of HTTP requests issued to the upstream API. -/
structure ExecResult where
  result : JsonVal
  breaker : Breaker
  requests : Nat

/-- The second (and last) loop iteration of `execute_tool` (attempt 1):
a 401 no longer triggers refresh, so it falls through to the `< 500`
branch, resets the counter and `raise_for_status` turns every non-2xx
into the generic internal error. -/
def executeAttempt1 (st : Breaker) (a : Attempt) (requestsBefore : Nat) : ExecResult :=
  match a with
  | .transportError =>
    ⟨errorResult "Greška u mrežnoj komunikaciji.", recordFailure st, requestsBefore + 1⟩
  | .response status body =>
    if status ≥ 500 then
      ⟨errorResult "Vanjski sustav ima poteškoća.", recordFailure st, requestsBefore + 1⟩
    else
      let st' : Breaker := { st with failureCount := 0 }
      if ¬ (200 ≤ status ∧ status ≤ 299) then
        ⟨errorResult "Interna greška sustava.", st', requestsBefore + 1⟩
      else if status = 204 then
        ⟨successNull, st', requestsBefore + 1⟩
      else
        match body with
        | some j => ⟨j, st', requestsBefore + 1⟩
        | none => ⟨errorResult "Interna greška sustava.", st', requestsBefore + 1⟩

/-- `OpenAPIGateway.execute_tool` (lines 35-102), with path binding,
header lifting and query/body split elided (they do not affect the
modelled outcomes). `attempts i` is the outcome of the i-th HTTP request;
`refreshOk` is the result of `_secure_refresh_token`. The circuit-open
short-circuit returns before any HTTP request. On a 401 at attempt 0 a
successful refresh `continue`s into attempt 1; otherwise attempt 0 is
decided exactly like attempt 1. -/
def executeTool (st : Breaker) (attempts : Nat → Attempt) (refreshOk : Bool) : ExecResult :=
  if st.circuitOpen then
    ⟨errorResult "Vanjski servis je privremeno nedostupan (Circuit Open).", st, 0⟩
  else
    match attempts 0 with
    | .transportError => executeAttempt1 st .transportError 0
    | .response status body =>
      if status = 401 then
        if refreshOk then executeAttempt1 st (attempts 1) 1
        else ⟨errorResult "Greška pri obnovi tokena.", st, 1⟩
      else executeAttempt1 st (.response status body) 0

/-- Folding `recordFailure` over `n` consecutive failures from a state. -/
def failuresFrom (st : Breaker) : Nat → Breaker
  | 0 => st
  | n + 1 => recordFailure (failuresFrom st n)

end Bridge

namespace Intent

/-- One structured tool call in an LLM reply: `id`, `function.name`,
`function.arguments` (raw string) and its `orjson.loads` parse
(`none` ⇔ `JSONDecodeError`). -/
structure ToolCall where
  id : String
  fname : String
  argsRaw : String
  argsParsed : Option JsonVal

/-- Outcome of one `chat.completions.create` call as consumed by
`analyze_intent`: an exception, or a message with its (possibly empty)
`tool_calls` list and optional text `content`. -/
inductive LLMOut where
  | raises
  | message (toolCalls : List ToolCall) (content : Option String)

/-- The dict returned by `analyze_intent`. -/
structure Decision where
  tool : Option String
  parameters : JsonVal
  toolCallId : Option String
  rawToolCalls : List ToolCall
  responseText : Option String

/-- `_text_response` (src/services/ai.py lines 147-153): `text or "Nisam
razumio."`, where both Python `None` and `""` are falsy. -/
def textResponse (text : Option String) : Decision :=
  let t := text.getD ""
  { tool := none, parameters := .obj [], toolCallId := none,
    rawToolCalls := [],
    responseText := some (if t = "" then "Nisam razumio." else t) }

/-- `analyze_intent` (src/services/ai.py lines 31-83) together with
`_handle_tool_decision`. `llm r` is the completion returned at retry
counter `r` (message construction and the tools/tool_choice arguments do
not affect the decision shape). A malformed-JSON tool call re-invokes
with `retry + 1`; a counter above 1 yields the fixed fallback text. -/
def analyzeIntent (llm : Nat → LLMOut) (retry : Nat) : Decision :=
  if retry > 1 then
    textResponse (some "Tehnička greška u formatu podataka.")
  else
    match llm retry with
    | .raises =>
      textResponse (some "Isprike, sustav je trenutno nedostupan zbog tehničke greške.")
    | .message toolCalls content =>
      match toolCalls with
      | [] => textResponse content
      | tc :: _ =>
        match tc.argsParsed with
        | some ps =>
          { tool := some tc.fname, parameters := ps, toolCallId := some tc.id,
            rawToolCalls := toolCalls, responseText := none }
        | none => analyzeIntent llm (retry + 1)
termination_by 2 - retry
decreasing_by omega

end Intent

namespace Reg

/-- One entry of a Swagger operation's `parameters` list. -/
structure Param where
  name : String
  type_ : String
  description : String
  required : Bool
deriving DecidableEq, Repr

/-- One property of the `requestBody` JSON schema. -/
structure BodyProp where
  name : String
  type_ : String
  description : String
deriving DecidableEq, Repr

/-- One Swagger operation object (`details` in `_parse_and_embed`):
the fields the registry reads. -/
structure Operation where
  operationId : Option String
  summary : String
  description : String
  parameters : List Param
  bodyProps : List BodyProp
  bodyRequired : List String
deriving DecidableEq, Repr

/-- A Swagger document: the `paths` object, each path mapping HTTP
methods to operations. -/
structure SpecDoc where
  paths : List (String × List (String × Operation))
deriving DecidableEq, Repr

/-- The OpenAI function schema built by `_create_openai_schema`:
properties as `(name, type, description)` triples, in parameter order
then body-property order, and the collected `required` names. -/
structure FunctionSchema where
  name : String
  description : String
  properties : List (String × String × String)
  required : List String
deriving DecidableEq, Repr

/-- `ToolRegistry._create_openai_schema` (lines 197-244). -/
def createOpenaiSchema (name description : String) (details : Operation) : FunctionSchema :=
  let paramProps := details.parameters.map (fun p => (p.name, p.type_, p.description))
  let paramReq := (details.parameters.filter (fun p => p.required)).map (fun p => p.name)
  let bodyProps := details.bodyProps.map (fun b => (b.name, b.type_, b.description))
  let bodyReq := (details.bodyProps.filter
    (fun b => details.bodyRequired.contains b.name)).map (fun b => b.name)
  { name := name, description := description,
    properties := paramProps ++ bodyProps, required := paramReq ++ bodyReq }

/-- One value of `tools_map`. -/
structure ToolDef where
  path : String
  method : String
  description : String
  openaiSchema : FunctionSchema
  operationId : String
deriving DecidableEq, Repr

/-- Python-dict insertion: update in place when the key exists
(preserving order), else append. -/
def dictInsert {A : Type} (m : List (String × A)) (k : String) (v : A) : List (String × A) :=
  if m.any (fun p => p.1 = k) then
    m.map (fun p => if p.1 = k then (k, v) else p)
  else m ++ [(k, v)]

/-- Python-dict lookup (`tools_map.get`). -/
def dictGet {A : Type} (m : List (String × A)) (k : String) : Option A :=
  (m.find? (fun p => p.1 = k)).map (fun p => p.2)

/-- The Redis cache as seen by the registry: string keys to cached
embedding vectors (`json.dumps`/`json.loads` round-trip modelled as the
identity; vectors are JSON arrays). -/
def Cache : Type := String → Option JsonVal

def Cache.set (c : Cache) (k : String) (v : JsonVal) : Cache :=
  fun k' => if k' = k then some v else c k'

/-- The three parallel registry structures. -/
structure Registry where
  toolsMap : List (String × ToolDef)
  toolsVectors : List JsonVal
  toolsNames : List String

/-- `text.replace("\n", " ")`: for the one-character pattern the Python
substring replacement is exactly a character map (structural, so it
reduces in the kernel, unlike `String.replace`). -/
def replaceNewlines (s : String) : String :=
  String.mk (s.data.map (fun c => if c = '\n' then ' ' else c))

/-- `ToolRegistry._get_embedding` (lines 132-149): consult the
`query_embed:<md5(text)>` cache; on miss call the embedding service on
the newline-stripped text and cache the vector. Returns the vector (or
the raised error), the cache after, and the number of embedding-service
calls made. `embed` is the opaque service, `hash` the opaque md5. -/
def getEmbedding (embed : String → Except Unit JsonVal) (hash : String → String)
    (c : Cache) (text : String) : Except Unit JsonVal × Cache × Nat :=
  let key := "query_embed:" ++ hash text
  match c key with
  | some v => (.ok v, c, 0)
  | none =>
    match embed (replaceNewlines text) with
    | .error e => (.error e, c, 1)
    | .ok v => (.ok v, c.set key v, 1)

/-- Derived per-operation values of the `_parse_and_embed` loop body. -/
def opIdOf (path method : String) (details : Operation) : String :=
  details.operationId.getD (method ++ "_" ++ path)

def descOf (details : Operation) : String :=
  details.summary ++ " " ++ details.description

def toolKeyOf (hash : String → String) (path method : String) (details : Operation) : String :=
  "tool_embedding:" ++ opIdOf path method details ++ ":" ++ hash (descOf details)

def toolDefOf (path method : String) (details : Operation) : ToolDef :=
  { path := path, method := method, description := descOf details,
    openaiSchema := createOpenaiSchema (opIdOf path method details) (descOf details) details,
    operationId := opIdOf path method details }

/-- Accumulator of `_parse_and_embed`: the new structures being built,
plus the evolving cache and the embedding-service call count. -/
structure ParseAcc where
  map : List (String × ToolDef)
  vectors : List JsonVal
  names : List String
  cache : Cache
  calls : Nat

/-- Outcome of the parse loop: success with the accumulator, or the
propagated embedding exception — in which case the cache writes made so
far and the calls made so far survive (Redis side effects), but no new
registry is produced. -/
inductive ParseRes where
  | ok (acc : ParseAcc)
  | failed (cache : Cache) (calls : Nat)

/-- Record one operation into the accumulator with its vector. -/
def recordOp (acc : ParseAcc) (path method : String) (details : Operation)
    (v : JsonVal) : ParseAcc :=
  { acc with
    map := dictInsert acc.map (opIdOf path method details) (toolDefOf path method details),
    vectors := acc.vectors ++ [v],
    names := acc.names ++ [opIdOf path method details] }

/-- Python `str.lower()` on the HTTP method names (character map;
`String.toLower` agrees but does not reduce in the kernel). -/
def lowerAscii (s : String) : String :=
  String.mk (s.data.map Char.toLower)

/-- The flattened operation list `_parse_and_embed` iterates, filtered to
the four HTTP methods. -/
def opsOf (spec : SpecDoc) : List (String × String × Operation) :=
  spec.paths.flatMap (fun pm =>
    (pm.2.filter (fun md => ["get", "post", "put", "delete"].contains (lowerAscii md.1))).map
      (fun md => (pm.1, md.1, md.2)))

/-- The loop of `_parse_and_embed` (lines 158-190): for each operation,
consult `tool_embedding:<op_id>:<desc_hash>`; on miss call
`_get_embedding` and `redis.set` the vector with no expiration; an
embedding failure propagates out of the loop. -/
def parseOps (embed : String → Except Unit JsonVal) (hash : String → String) :
    List (String × String × Operation) → ParseAcc → ParseRes
  | [], acc => .ok acc
  | (path, method, details) :: rest, acc =>
    let cacheKey := toolKeyOf hash path method details
    match acc.cache cacheKey with
    | some v => parseOps embed hash rest (recordOp acc path method details v)
    | none =>
      match getEmbedding embed hash acc.cache (descOf details) with
      | (.error _, c', n) => .failed c' (acc.calls + n)
      | (.ok v, c', n) =>
        parseOps embed hash rest
          (recordOp { acc with cache := (c'.set cacheKey v), calls := acc.calls + n }
            path method details v)

/-- `ToolRegistry._parse_and_embed` from a starting cache. -/
def parseAndEmbed (embed : String → Except Unit JsonVal) (hash : String → String)
    (spec : SpecDoc) (c : Cache) : ParseRes :=
  parseOps embed hash (opsOf spec) { map := [], vectors := [], names := [], cache := c, calls := 0 }

/-- Mutable registry state of a worker: the snapshot, readiness, and the
shared Redis cache. -/
structure RegState where
  reg : Registry
  isReady : Bool
  cache : Cache

/-- The `if spec:` tail of `ToolRegistry.load_swagger` (lines 95-103)
once a spec document is in hand: run `_parse_and_embed`; on success swap
the three references and set `is_ready`; on exception keep the old
registry (cache side effects persist). Also returns the number of
embedding-service calls the load made. -/
def loadSwagger (embed : String → Except Unit JsonVal) (hash : String → String)
    (spec : SpecDoc) (st : RegState) : RegState × Nat :=
  match parseAndEmbed embed hash spec st.cache with
  | .ok acc =>
    ({ reg := { toolsMap := acc.map, toolsVectors := acc.vectors, toolsNames := acc.names },
       isReady := true, cache := acc.cache }, acc.calls)
  | .failed c' n => ({ st with cache := c' }, n)

end Reg

namespace Wrk

/-- An inbound stream entry's field dict `{sender, text, message_id,
timestamp}`; `sender = none` is an absent/None field. -/
structure InPayload where
  sender : Option String
  text : String
  messageId : String
deriving DecidableEq, Repr

/-- An inbound DLQ list entry built by `QueueService.store_inbound_dlq`. -/
structure DlqEntry where
  originalPayload : InPayload
  error : String
  failedAt : Nat
deriving DecidableEq, Repr

/-- The durable effects of the worker visible to the claims: outbound
pushes `(to, text)` (the generated correlation UUID elided), the inbound
DLQ list, and the stream entry ids XACKed and XDELed. -/
structure WState where
  outbound : List (String × Option String) := []
  dlqInbound : List DlqEntry := []
  acked : List String := []
  deleted : List String := []
deriving DecidableEq, Repr

/-- Python `str.strip()`: drop leading and trailing whitespace
(executable model; `String.trim` agrees but does not reduce in the
kernel). -/
def pyStrip (s : String) : String :=
  String.mk (((s.data.dropWhile Char.isWhitespace).reverse.dropWhile
    Char.isWhitespace).reverse)

/-- `XACK` + `XDEL` of one stream entry. -/
def ackDel (msgId : String) (st : WState) : WState :=
  { st with acked := st.acked ++ [msgId], deleted := st.deleted ++ [msgId] }

/-- `QueueService.store_inbound_dlq`. -/
def pushDlq (now : Nat) (payload : InPayload) (error : String) (st : WState) : WState :=
  { st with dlqInbound := st.dlqInbound ++
      [{ originalPayload := payload, error := error, failedAt := now }] }

/-- `WhatsappWorker._process_single_message_transaction` (src/worker.py
lines 183-206). `rate` is the outcome of `_check_rate_limit` (which may
itself raise); `biz` is `_handle_business_logic` applied to the sender
and stripped text, returning the new state or the message of a raised
exception. On success or rate-limit denial (or a missing sender/blank
text) the entry is ACKed and deleted; on an exception the original
payload goes to the inbound DLQ and the entry is still ACKed and
deleted. No distributed lock appears in this function. -/
def processSingle (now : Nat) (rate : Except String Bool)
    (biz : String → String → WState → Except String WState)
    (msgId : String) (payload : InPayload) (st : WState) : WState :=
  let attempt : Except String WState :=
    match payload.sender with
    | none => .ok st
    | some sender =>
      if sender ≠ "" ∧ pyStrip payload.text ≠ "" then
        match rate with
        | .error e => .error e
        | .ok true => biz sender (pyStrip payload.text) st
        | .ok false => .ok st
      else .ok st
  match attempt with
  | .ok st' => ackDel msgId st'
  | .error e => ackDel msgId (pushDlq now payload e st)

/-- Per-iteration state of `_run_ai_loop`: the sender's context list and
the outbound queue. -/
structure LoopSt where
  ctx : List Ctx.Msg := []
  outbound : List (String × Option String) := []
deriving DecidableEq, Repr

/-- The `{"error": "Tool not found"}` dict. -/
def toolNotFound : JsonVal := .obj [("error", .str "Tool not found")]

/-- The body of one `_run_ai_loop` iteration plus the remaining
iterations, counting the fuel down from 3 (`iter = 3 - fuel` is the
iteration index). `decisions iter` is the `analyze_intent` result of
that iteration; `execResult iter` the gateway result; `showTC` is the
`str()` rendering of raw tool calls (for token counting);
`serialize` the serialization of a tool result into message content.
The query search and `find_relevant_tools` call only shape the tools
argument of `analyze_intent`, which the decision oracle absorbs.
When the fuel runs out the loop simply returns: nothing is enqueued. -/
def runAiLoopAux (enc : String → Nat) (summarize : List Ctx.Msg → Option String)
    (decisions : Nat → Intent.Decision) (toolsMap : String → Option Reg.ToolDef)
    (execResult : Nat → JsonVal) (showTC : List Intent.ToolCall → String)
    (serialize : JsonVal → String) (sender : String) :
    Nat → Option String → LoopSt → LoopSt
  | 0, _, st => st
  | fuel + 1, _text, st =>
    let d := decisions (3 - (fuel + 1))
    match d.tool with
    | some toolName =>
      let st1 : LoopSt :=
        { st with ctx := (Ctx.addMessage enc summarize st.ctx "assistant" none
            (some (showTC d.rawToolCalls))) }
      let result : JsonVal :=
        match toolsMap toolName with
        | some _ => execResult (3 - (fuel + 1))
        | none => toolNotFound
      let st2 : LoopSt :=
        { st1 with ctx := (Ctx.addMessage enc summarize st1.ctx "tool"
            (some (serialize result)) none d.toolCallId (some toolName)) }
      runAiLoopAux enc summarize decisions toolsMap execResult showTC serialize sender
        fuel none st2
    | none =>
      let resp := d.responseText
      let st1 : LoopSt :=
        { st with ctx := Ctx.addMessage enc summarize st.ctx "assistant" resp }
      { st1 with outbound := st1.outbound ++ [(sender, resp)] }

/-- `WhatsappWorker._run_ai_loop` (src/worker.py lines 249-297): a
`for _ in range(3)` loop; a text decision enqueues the reply and breaks;
after a third tool-call iteration the loop ends with no enqueue. -/
def runAiLoop (enc : String → Nat) (summarize : List Ctx.Msg → Option String)
    (decisions : Nat → Intent.Decision) (toolsMap : String → Option Reg.ToolDef)
    (execResult : Nat → JsonVal) (showTC : List Intent.ToolCall → String)
    (serialize : JsonVal → String) (sender : String) (text : Option String)
    (st : LoopSt) : LoopSt :=
  runAiLoopAux enc summarize decisions toolsMap execResult showTC serialize sender
    3 text st

end Wrk

section ClaimC3

/-- **C3.** `schedule_retry` increments the attempts counter, routes to
the outbound DLQ when the incremented value reaches 5, and otherwise
schedules at `now + 2 ^ attempts` (incremented) — but the DLQ error field
is the string `"Max retries exceeded"`, not `"max_retries"`, and the
delay 32 s is never produced: the reachable delays are 2, 4, 8, 16 s
(an incremented counter of 5 goes to the DLQ instead of scheduling
`now + 32`). Incremented counter 4 schedules `now + 16`; 5 routes to
DLQ. -/
theorem C3_schedule_retry_amended (now : Nat) (p : MQueue.Payload) :
    (p.attempts + 1 ≥ 5 →
      MQueue.scheduleRetry now p =
        .dlq { p with error := some "Max retries exceeded", failedAt := some now }) ∧
    (p.attempts + 1 < 5 →
      MQueue.scheduleRetry now p =
        .scheduled { p with attempts := p.attempts + 1 } (now + 2 ^ (p.attempts + 1)) ∧
      2 ≤ 2 ^ (p.attempts + 1) ∧ 2 ^ (p.attempts + 1) ≤ 16) ∧
    MQueue.retryDelay p.attempts ≠ some 32 := by
  refine ⟨fun h => ?_, fun h => ⟨?_, ?_, ?_⟩, ?_⟩
  · simp [MQueue.scheduleRetry, h]
  · simp [MQueue.scheduleRetry, Nat.not_le.mpr h]
  · calc 2 = 2 ^ 1 := by norm_num
      _ ≤ 2 ^ (p.attempts + 1) := Nat.pow_le_pow_right (by norm_num) (by omega)
  · calc 2 ^ (p.attempts + 1) ≤ 2 ^ 4 := Nat.pow_le_pow_right (by norm_num) (by omega)
      _ = 16 := by norm_num
  · by_cases h : p.attempts + 1 ≥ 5
    · simp [MQueue.retryDelay, MQueue.scheduleRetry, h]
    · have hle : 2 ^ (p.attempts + 1) ≤ 16 := by
        calc 2 ^ (p.attempts + 1) ≤ 2 ^ 4 := Nat.pow_le_pow_right (by norm_num) (by omega)
          _ = 16 := by norm_num
      simp only [MQueue.retryDelay, MQueue.scheduleRetry, if_neg h]
      intro hc
      have : 0 + 2 ^ (p.attempts + 1) = 32 := by
        simpa using Option.some.inj hc
      omega

/-- Witness for C3: a payload at counter 3 is rescheduled at `now + 16`,
and a payload at counter 4 goes to the DLQ. -/
theorem C3_schedule_retry_witness :
    MQueue.scheduleRetry 100 { to_ := "a", text := "b", cid := none, attempts := 3 } =
      .scheduled { to_ := "a", text := "b", cid := none, attempts := 4 } 116 ∧
    MQueue.scheduleRetry 100 { to_ := "a", text := "b", cid := none, attempts := 4 } =
      .dlq { to_ := "a", text := "b", cid := none, attempts := 4,
             error := some "Max retries exceeded", failedAt := some 100 } := by
  constructor
  · have h := (C3_schedule_retry_amended 100
      { to_ := "a", text := "b", cid := none, attempts := 3 }).2.1 (by norm_num)
    simpa using h.1
  · exact (C3_schedule_retry_amended 100
      { to_ := "a", text := "b", cid := none, attempts := 4 }).1 (by norm_num)

/-- **C3 counterexample.** The claim says the DLQ entry carries
`{error: "max_retries"}`; the code stores `"Max retries exceeded"`:
at the concrete payload `{attempts: 4}` the produced DLQ entry's error
field differs from the claimed one. -/
theorem C3_schedule_retry_counterexample :
    (MQueue.scheduleRetry 0 { to_ := "x", text := "y", cid := some "c", attempts := 4 } =
      .dlq { to_ := "x", text := "y", cid := some "c", attempts := 4,
             error := some "Max retries exceeded", failedAt := some 0 }) ∧
    some "Max retries exceeded" ≠ some "max_retries" := by
  constructor
  · simp [MQueue.scheduleRetry]
  · decide

end ClaimC3

section ClaimC5

/-- From a clean breaker, `n` failures leave the counter at `n`. -/
theorem failuresFrom_count (st : Bridge.Breaker) (n : Nat) :
    (Bridge.failuresFrom st n).failureCount = st.failureCount + n := by
  induction n with
  | zero => simp [Bridge.failuresFrom]
  | succ k ih => simp [Bridge.failuresFrom, Bridge.recordFailure, ih]; omega

/-- From a clean breaker, the circuit is open iff at least 6 consecutive
failures were recorded. -/
theorem failuresFrom_open (st : Bridge.Breaker) (hopen : st.circuitOpen = false)
    (hcnt : st.failureCount = 0) (n : Nat) :
    (Bridge.failuresFrom st n).circuitOpen = decide (n ≥ 6) := by
  induction n with
  | zero => simpa [Bridge.failuresFrom] using hopen
  | succ k ih =>
    have hc := failuresFrom_count st k
    simp only [Bridge.failuresFrom, Bridge.recordFailure, ih, hc, hcnt]
    by_cases h5 : k ≥ 5
    · have h1 : 0 + k + 1 > 5 := by omega
      have h2 : k + 1 ≥ 6 := by omega
      simp [h1, h2]
      omega
    · have h1 : ¬ (0 + k + 1 > 5) := by omega
      have h2 : ¬ (k + 1 ≥ 6) := by omega
      have h3 : ¬ (k ≥ 6) := by omega
      simp [h1, h2, h3]
      omega

/-- **C5 (amended).** Each 5xx/transport failure increments the
consecutive-failure counter; starting from a clean breaker the circuit is
open exactly after **6** (not 5) consecutive failures, because
`_record_failure` opens only when the incremented counter is strictly
greater than 5; and while the circuit is open `execute_tool`
short-circuits with the `{error: true, …}` circuit-open result, leaving
the state unchanged and issuing zero HTTP requests. -/
theorem C5_circuit_breaker_amended :
    (∀ st : Bridge.Breaker, (Bridge.recordFailure st).failureCount = st.failureCount + 1) ∧
    (∀ st : Bridge.Breaker, st.circuitOpen = false → st.failureCount = 0 →
      ∀ n, ((Bridge.failuresFrom st n).circuitOpen = true ↔ n ≥ 6)) ∧
    (∀ (st : Bridge.Breaker) (attempts : Nat → Bridge.Attempt) (refreshOk : Bool),
      st.circuitOpen = true →
      Bridge.executeTool st attempts refreshOk =
        ⟨Bridge.errorResult "Vanjski servis je privremeno nedostupan (Circuit Open).", st, 0⟩) := by
  refine ⟨fun st => rfl, fun st h1 h2 n => ?_, fun st attempts refreshOk h => ?_⟩
  · rw [failuresFrom_open st h1 h2 n]; simp
  · simp [Bridge.executeTool, h]

/-- Witness for C5: six consecutive failures open the circuit, and an
open-circuit call returns the short-circuit result with zero requests. -/
theorem C5_circuit_breaker_witness :
    (Bridge.failuresFrom {} 6).circuitOpen = true ∧
    Bridge.executeTool { failureCount := 6, circuitOpen := true }
        (fun _ => Bridge.Attempt.transportError) false =
      ⟨Bridge.errorResult "Vanjski servis je privremeno nedostupan (Circuit Open).",
        { failureCount := 6, circuitOpen := true }, 0⟩ := by
  constructor
  · exact (C5_circuit_breaker_amended.2.1 {} rfl rfl 6).mpr (by norm_num)
  · exact C5_circuit_breaker_amended.2.2 _ _ false rfl

/-- **C5 counterexample.** After exactly 5 consecutive failures from a
clean breaker the circuit is still closed, and a subsequent
`execute_tool` call still issues an HTTP request (1, not 0) — the claim's
"after 5 consecutive failures the circuit is open" is false on the code,
which opens only when the counter exceeds 5. -/
theorem C5_circuit_breaker_counterexample :
    (Bridge.failuresFrom {} 5).circuitOpen = false ∧
    (Bridge.executeTool (Bridge.failuresFrom {} 5)
        (fun _ => Bridge.Attempt.transportError) false).requests = 1 := by
  constructor <;> rfl

end ClaimC5


section ClaimC7

/-- `errorResult` and `successNull` are different dicts. -/
theorem errorResult_ne_successNull (msg : String) :
    Bridge.errorResult msg ≠ Bridge.successNull := by
  intro h
  simp only [Bridge.errorResult, Bridge.successNull, JsonVal.obj.injEq,
    List.cons.injEq, Prod.mk.injEq] at h
  exact absurd h.1.1 (by decide)

/-- **C7 (amended).** Only a **204** response returns
`{status: "success", data: null}`; any other 2xx returns the parsed JSON
body when the body parses, and a 2xx response with an empty (or
unparseable) body makes `response.json()` raise, which the generic
handler maps to `{error: true, message: "Interna greška sustava."}` —
not to the success envelope. -/
theorem C7_success_body_amended (st : Bridge.Breaker) (attempts : Nat → Bridge.Attempt)
    (refreshOk : Bool) (hopen : st.circuitOpen = false) :
    (∀ body, attempts 0 = .response 204 body →
      Bridge.executeTool st attempts refreshOk =
        ⟨Bridge.successNull, { st with failureCount := 0 }, 1⟩) ∧
    (∀ s j, attempts 0 = .response s (some j) → 200 ≤ s → s ≤ 299 → s ≠ 204 →
      Bridge.executeTool st attempts refreshOk = ⟨j, { st with failureCount := 0 }, 1⟩) ∧
    (∀ s, attempts 0 = .response s none → 200 ≤ s → s ≤ 299 → s ≠ 204 →
      Bridge.executeTool st attempts refreshOk =
        ⟨Bridge.errorResult "Interna greška sustava.", { st with failureCount := 0 }, 1⟩) := by
  refine ⟨fun body h0 => ?_, fun s j h0 hlo hhi hne => ?_, fun s h0 hlo hhi hne => ?_⟩
  · simp [Bridge.executeTool, hopen, h0, Bridge.executeAttempt1]
  · have h401 : ¬ (s = 401) := by omega
    have h500 : ¬ (s ≥ 500) := by omega
    have h2xx : ¬ ¬ (200 ≤ s ∧ s ≤ 299) := by omega
    simp [Bridge.executeTool, hopen, h0, Bridge.executeAttempt1, h401, h500, h2xx, hne]
  · have h401 : ¬ (s = 401) := by omega
    have h500 : ¬ (s ≥ 500) := by omega
    have h2xx : ¬ ¬ (200 ≤ s ∧ s ≤ 299) := by omega
    simp [Bridge.executeTool, hopen, h0, Bridge.executeAttempt1, h401, h500, h2xx, hne]

/-- Witness for C7: a 204 yields the success envelope; a 200 with JSON
body `{"x": 1}` yields that body; a 200 with an empty body yields the
internal-error dict. -/
theorem C7_success_body_witness :
    Bridge.executeTool {} (fun _ => .response 204 none) false =
      ⟨Bridge.successNull, {}, 1⟩ ∧
    Bridge.executeTool {} (fun _ => .response 200 (some (.obj [("x", .num 1)]))) false =
      ⟨.obj [("x", .num 1)], {}, 1⟩ ∧
    Bridge.executeTool {} (fun _ => .response 200 none) false =
      ⟨Bridge.errorResult "Interna greška sustava.", {}, 1⟩ := by
  refine ⟨?_, ?_, ?_⟩
  · exact (C7_success_body_amended {} _ false rfl).1 none rfl
  · exact (C7_success_body_amended {} _ false rfl).2.1 200 _ rfl (by norm_num) (by norm_num)
      (by norm_num)
  · exact (C7_success_body_amended {} _ false rfl).2.2 200 rfl (by norm_num) (by norm_num)
      (by norm_num)

/-- **C7 counterexample.** A 200 response with an empty body: the claim
says the result is `{status: "success", data: null}`, but `execute_tool`
returns the internal-error dict (only 204 produces the success
envelope). -/
theorem C7_success_body_counterexample :
    (Bridge.executeTool {} (fun _ => .response 200 none) false).result =
      Bridge.errorResult "Interna greška sustava." ∧
    Bridge.errorResult "Interna greška sustava." ≠ Bridge.successNull := by
  constructor
  · rfl
  · intro h
    simp only [Bridge.errorResult, Bridge.successNull, JsonVal.obj.injEq,
      List.cons.injEq, Prod.mk.injEq] at h
    exact absurd h.1.1 (by decide)

end ClaimC7

section ClaimC10

/-- `_text_response` always carries a non-empty text and no tool. -/
theorem textResponse_spec (t : Option String) :
    (Intent.textResponse t).tool = none ∧
    ∃ s, (Intent.textResponse t).responseText = some s ∧ s ≠ "" := by
  refine ⟨rfl, ?_⟩
  by_cases h : t.getD "" = ""
  · exact ⟨"Nisam razumio.", by simp [Intent.textResponse, h], by decide⟩
  · exact ⟨t.getD "", by simp [Intent.textResponse, h], h⟩

/-- **C10.** Every `analyze_intent` result without a tool call carries a
non-empty `response_text`: a null/empty LLM text, an inference exception,
and exhaustion of the malformed-JSON retry budget all fall back to a
fixed non-empty string. -/
theorem C10_nonempty_text (llm : Nat → Intent.LLMOut) (retry : Nat)
    (h : (Intent.analyzeIntent llm retry).tool = none) :
    ∃ s, (Intent.analyzeIntent llm retry).responseText = some s ∧ s ≠ "" := by
  by_cases h1 : retry > 1
  · rw [Intent.analyzeIntent] at h ⊢
    simp only [if_pos h1]
    exact (textResponse_spec _).2
  · rw [Intent.analyzeIntent] at h ⊢
    simp only [if_neg h1] at h ⊢
    match hllm : llm retry with
    | .raises => exact (textResponse_spec _).2
    | .message [] content => simp only [hllm]; exact (textResponse_spec _).2
    | .message (tc :: rest) content =>
      simp only [hllm] at h ⊢
      match hargs : tc.argsParsed with
      | some ps => simp [hargs] at h
      | none =>
        simp only [hargs] at h ⊢
        exact C10_nonempty_text llm (retry + 1) h
termination_by 2 - retry
decreasing_by omega

/-- Witness for C10: an LLM reply with no tool calls and null content
yields the decision `{tool: null, response_text: "Nisam razumio."}`. -/
theorem C10_nonempty_text_witness :
    ∃ s, (Intent.analyzeIntent (fun _ => Intent.LLMOut.message [] none) 0).responseText =
      some s ∧ s ≠ "" := by
  refine C10_nonempty_text (fun _ => Intent.LLMOut.message [] none) 0 ?_
  rw [Intent.analyzeIntent]
  rfl

end ClaimC10

section ClaimC6

/-- **C6.** When the rate-limit check or the business logic (AgentLoop
invocation) raises, `_process_single_message_transaction` stores the
original payload with the error in the inbound DLQ and still ACKs and
DELs the stream entry, so the failing entry never remains pending. -/
theorem C6_poison_pill (now : Nat) (rate : Except String Bool)
    (biz : String → String → Wrk.WState → Except String Wrk.WState)
    (msgId : String) (payload : Wrk.InPayload) (st : Wrk.WState) (s e : String)
    (hs : payload.sender = some s) (hne : s ≠ "") (ht : Wrk.pyStrip payload.text ≠ "")
    (hraise : rate = .error e ∨ (rate = .ok true ∧ biz s (Wrk.pyStrip payload.text) st = .error e)) :
    Wrk.processSingle now rate biz msgId payload st =
      Wrk.ackDel msgId (Wrk.pushDlq now payload e st) ∧
    (Wrk.processSingle now rate biz msgId payload st).dlqInbound =
      st.dlqInbound ++ [{ originalPayload := payload, error := e, failedAt := now }] ∧
    msgId ∈ (Wrk.processSingle now rate biz msgId payload st).acked ∧
    msgId ∈ (Wrk.processSingle now rate biz msgId payload st).deleted := by
  have hmain : Wrk.processSingle now rate biz msgId payload st =
      Wrk.ackDel msgId (Wrk.pushDlq now payload e st) := by
    rcases hraise with hrate | ⟨hrate, hbiz⟩
    · simp [Wrk.processSingle, hs, hne, ht, hrate]
    · simp [Wrk.processSingle, hs, hne, ht, hrate, hbiz]
  refine ⟨hmain, ?_, ?_, ?_⟩ <;>
    simp [hmain, Wrk.ackDel, Wrk.pushDlq]

/-- Witness for C6: a concrete raising business logic on a concrete
entry: the payload lands in the DLQ and the entry is ACKed and DELed. -/
theorem C6_poison_pill_witness :
    Wrk.processSingle 7 (.ok true)
        (fun _ _ _ => .error "boom") "1-0"
        { sender := some "38591", text := " hi ", messageId := "m9" } {} =
      Wrk.ackDel "1-0" (Wrk.pushDlq 7
        { sender := some "38591", text := " hi ", messageId := "m9" } "boom" {}) := by
  exact (C6_poison_pill 7 (.ok true) (fun _ _ _ => .error "boom") "1-0"
    { sender := some "38591", text := " hi ", messageId := "m9" } {} "38591" "boom"
    rfl (by decide) (by decide) (Or.inr ⟨rfl, rfl⟩)).1

end ClaimC6

section ClaimC1

/-- **C1 (amended).** `_process_single_message_transaction` acquires no
distributed lock (no `lock:msg:<id>` key appears in the worker): every
well-formed stream entry is handed to the business logic unconditionally,
so two stream entries carrying the same `message_id` are **both**
processed — the business logic runs once per entry — and each entry is
separately ACKed and deleted. -/
theorem C1_no_lock_amended (now : Nat)
    (biz : String → String → Wrk.WState → Except String Wrk.WState)
    (msgId1 msgId2 : String) (p : Wrk.InPayload) (st st1 st2 : Wrk.WState) (s : String)
    (hs : p.sender = some s) (hne : s ≠ "") (ht : Wrk.pyStrip p.text ≠ "")
    (h1 : biz s (Wrk.pyStrip p.text) st = .ok st1)
    (h2 : biz s (Wrk.pyStrip p.text) (Wrk.ackDel msgId1 st1) = .ok st2) :
    Wrk.processSingle now (.ok true) biz msgId2 p
        (Wrk.processSingle now (.ok true) biz msgId1 p st) =
      Wrk.ackDel msgId2 st2 := by
  have hfirst : Wrk.processSingle now (.ok true) biz msgId1 p st = Wrk.ackDel msgId1 st1 := by
    simp [Wrk.processSingle, hs, hne, ht, h1]
  rw [hfirst]
  simp [Wrk.processSingle, hs, hne, ht, h2]

/-- Witness for C1 (amended): a concrete duplicate pair, both handled. -/
theorem C1_no_lock_witness :
    Wrk.processSingle 0 (.ok true)
        (fun s _ st => .ok { st with outbound := st.outbound ++ [(s, some "reply")] })
        "1-1" { sender := some "38591", text := "hi", messageId := "m2" }
        (Wrk.processSingle 0 (.ok true)
          (fun s _ st => .ok { st with outbound := st.outbound ++ [(s, some "reply")] })
          "1-0" { sender := some "38591", text := "hi", messageId := "m2" } {}) =
      Wrk.ackDel "1-1"
        { outbound := [("38591", some "reply"), ("38591", some "reply")],
          acked := ["1-0"], deleted := ["1-0"] } := by
  exact C1_no_lock_amended 0 _ "1-0" "1-1"
    { sender := some "38591", text := "hi", messageId := "m2" } {}
    { outbound := [("38591", some "reply")] }
    { outbound := [("38591", some "reply"), ("38591", some "reply")],
      acked := ["1-0"], deleted := ["1-0"] }
    "38591" rfl (by decide) (by decide) rfl rfl

/-- **C1 counterexample.** Two stream entries with the same
`message_id = "m2"`, with a business logic that enqueues one reply per
invocation: after both entries are handled, **two** replies are in the
outbound queue and both entries were ACKed — not "exactly one processed,
exactly one reply" as the claim (relying on a `lock:msg:<id>` lock that
does not exist in the code) states. -/
theorem C1_no_lock_counterexample :
    (Wrk.processSingle 0 (.ok true)
        (fun s _ st => .ok { st with outbound := st.outbound ++ [(s, some "reply")] })
        "1-1" { sender := some "38591", text := "hi", messageId := "m2" }
        (Wrk.processSingle 0 (.ok true)
          (fun s _ st => .ok { st with outbound := st.outbound ++ [(s, some "reply")] })
          "1-0" { sender := some "38591", text := "hi", messageId := "m2" } {})).outbound.length
      = 2 ∧
    (Wrk.processSingle 0 (.ok true)
        (fun s _ st => .ok { st with outbound := st.outbound ++ [(s, some "reply")] })
        "1-1" { sender := some "38591", text := "hi", messageId := "m2" }
        (Wrk.processSingle 0 (.ok true)
          (fun s _ st => .ok { st with outbound := st.outbound ++ [(s, some "reply")] })
          "1-0" { sender := some "38591", text := "hi", messageId := "m2" } {})).acked
      = ["1-0", "1-1"] := by
  constructor <;> rfl

end ClaimC1

section ClaimC4

/-- When every remaining iteration's decision is a tool call, the loop
body never touches the outbound queue. -/
theorem runAiLoopAux_outbound_all_tools (enc : String → Nat)
    (summarize : List Ctx.Msg → Option String) (decisions : Nat → Intent.Decision)
    (toolsMap : String → Option Reg.ToolDef) (execResult : Nat → JsonVal)
    (showTC : List Intent.ToolCall → String) (serialize : JsonVal → String)
    (sender : String) (h : ∀ i, i < 3 → ((decisions i).tool).isSome = true) :
    ∀ (fuel : Nat) (text : Option String) (st : Wrk.LoopSt),
      (Wrk.runAiLoopAux enc summarize decisions toolsMap execResult showTC serialize
        sender fuel text st).outbound = st.outbound := by
  intro fuel
  induction fuel with
  | zero => intro text st; rfl
  | succ k ih =>
    intro text st
    have hidx : 3 - (k + 1) < 3 := by omega
    obtain ⟨nm, hnm⟩ := Option.isSome_iff_exists.mp (h (3 - (k + 1)) hidx)
    simp only [Wrk.runAiLoopAux, hnm]
    exact ih none _

/-- **C4 (amended).** If each of the three plan/act/observe iterations
ends with a tool call, `_run_ai_loop` terminates after the third
iteration having enqueued **nothing**: the outbound queue is exactly as
before the loop. No "Request too complex; please simplify." (or any
other) fallback message exists in the code. -/
theorem C4_loop_exhaustion_amended (enc : String → Nat)
    (summarize : List Ctx.Msg → Option String) (decisions : Nat → Intent.Decision)
    (toolsMap : String → Option Reg.ToolDef) (execResult : Nat → JsonVal)
    (showTC : List Intent.ToolCall → String) (serialize : JsonVal → String)
    (sender : String) (text : Option String) (st : Wrk.LoopSt)
    (h : ∀ i, i < 3 → ((decisions i).tool).isSome = true) :
    (Wrk.runAiLoop enc summarize decisions toolsMap execResult showTC serialize
      sender text st).outbound = st.outbound := by
  exact runAiLoopAux_outbound_all_tools enc summarize decisions toolsMap execResult
    showTC serialize sender h 3 text st

/-- Witness for C4 (amended): three concrete tool-call decisions leave a
concrete non-empty outbound queue untouched. -/
theorem C4_loop_exhaustion_witness :
    (Wrk.runAiLoop (fun s => s.length) (fun _ => none)
      (fun _ => { tool := some "get_x", parameters := .obj [], toolCallId := some "c1",
                  rawToolCalls := [], responseText := none })
      (fun _ => none) (fun _ => .null) (fun _ => "[]") (fun _ => "res") "38591"
      (some "hello") { outbound := [("38591", some "earlier")] }).outbound =
      [("38591", some "earlier")] := by
  exact C4_loop_exhaustion_amended (fun s => s.length) (fun _ => none)
    (fun _ => { tool := some "get_x", parameters := .obj [], toolCallId := some "c1",
                rawToolCalls := [], responseText := none })
    (fun _ => none) (fun _ => .null) (fun _ => "[]") (fun _ => "res") "38591"
    (some "hello") { outbound := [("38591", some "earlier")] } (fun i _ => rfl)

/-- **C4 counterexample.** A run in which all three iterations decide on
a tool call: the outbound queue afterwards is empty — in particular the
message "Request too complex; please simplify." was never enqueued,
contradicting the claim. -/
theorem C4_loop_exhaustion_counterexample :
    (Wrk.runAiLoop (fun s => s.length) (fun _ => none)
      (fun _ => { tool := some "get_x", parameters := .obj [], toolCallId := some "c1",
                  rawToolCalls := [], responseText := none })
      (fun _ => none) (fun _ => .null) (fun _ => "[]") (fun _ => "res") "38591"
      (some "hello") {}).outbound = [] := by
  rfl

end ClaimC4

section ClaimC2

/-- The backwards walk never accepts more messages than the list has. -/
theorem acceptedFromEnd_le (enc : String → Nat) (kept : Nat) (l : List Ctx.Msg) :
    Ctx.acceptedFromEnd enc kept l ≤ l.length := by
  induction l generalizing kept with
  | nil => simp [Ctx.acceptedFromEnd]
  | cons m rest ih =>
    simp only [Ctx.acceptedFromEnd, List.length_cons]
    split
    · omega
    · have := ih (kept + Ctx.msgTokens enc m)
      omega

/-- Whatever the walk accepts stays within the target budget. -/
theorem acceptedFromEnd_budget (enc : String → Nat) (kept : Nat) (l : List Ctx.Msg)
    (hk : kept ≤ Ctx.TARGET_TOKENS) :
    kept + Ctx.countTokens enc (l.take (Ctx.acceptedFromEnd enc kept l)) ≤
      Ctx.TARGET_TOKENS := by
  induction l generalizing kept with
  | nil => simpa [Ctx.acceptedFromEnd, Ctx.countTokens] using hk
  | cons m rest ih =>
    simp only [Ctx.acceptedFromEnd]
    split
    · simpa [Ctx.countTokens] using hk
    · rename_i hle
      have hk' : kept + Ctx.msgTokens enc m ≤ Ctx.TARGET_TOKENS := by omega
      have := ih (kept + Ctx.msgTokens enc m) hk'
      simp only [List.take_succ_cons, Ctx.countTokens, List.map_cons, List.sum_cons] at *
      omega

/-- Token counting ignores list orientation. -/
theorem countTokens_reverse (enc : String → Nat) (l : List Ctx.Msg) :
    Ctx.countTokens enc l.reverse = Ctx.countTokens enc l := by
  simp only [Ctx.countTokens, List.map_reverse]
  exact List.sum_reverse _

/-- The suffix retained by the computed split fits in `TARGET_TOKENS`. -/
theorem countTokens_drop_computeSplit (enc : String → Nat) (h : List Ctx.Msg) :
    Ctx.countTokens enc (h.drop (Ctx.computeSplit enc h)) ≤ Ctx.TARGET_TOKENS := by
  have hrt : h.drop (Ctx.computeSplit enc h) =
      (h.reverse.take (Ctx.acceptedFromEnd enc 0 h.reverse)).reverse := by
    have := List.rtake_eq_reverse_take_reverse (l := h)
      (n := Ctx.acceptedFromEnd enc 0 h.reverse)
    simpa [List.rtake, Ctx.computeSplit] using this
  rw [hrt, countTokens_reverse]
  have := acceptedFromEnd_budget enc 0 h.reverse (by norm_num [Ctx.TARGET_TOKENS])
  omega

/-- **C2 (amended).** `add_message` appends the (gatekept) message and
runs `_enforce_token_limit`, but the `MAX_TOKENS` bound is **not** an
unconditional post-condition of the write: enforcement is skipped
entirely while the stored list has fewer than 5 entries, so a short
history can exceed 2500 tokens when the write returns. What does hold:
a write that leaves the history within `MAX_TOKENS` leaves it unchanged,
and when the stored history has ≥ 5 messages and exceeds `MAX_TOKENS`,
enforcement leaves at most `TARGET_TOKENS` (1500) tokens of retained
messages plus the tokens of the prepended summary message (zero if
summarization fails). -/
theorem C2_token_budget_amended (enc : String → Nat)
    (summarize : List Ctx.Msg → Option String) :
    (∀ (h : List Ctx.Msg) (role : String) (content toolCalls toolCallId name : Option String),
      Ctx.addMessage enc summarize h role content toolCalls toolCallId name =
        Ctx.enforceTokenLimit enc summarize
          (h ++ [Ctx.mkStoredMsg role content toolCalls toolCallId name])) ∧
    (∀ h : List Ctx.Msg, Ctx.countTokens enc h ≤ Ctx.MAX_TOKENS →
      Ctx.enforceTokenLimit enc summarize h = h) ∧
    (∀ h : List Ctx.Msg, 5 ≤ h.length → Ctx.MAX_TOKENS < Ctx.countTokens enc h →
      Ctx.countTokens enc (Ctx.enforceTokenLimit enc summarize h) ≤
        Ctx.TARGET_TOKENS + Ctx.summaryBudget enc summarize h) := by
  refine ⟨fun h role content toolCalls toolCallId name => rfl, fun h hle => ?_, fun h h5 hover => ?_⟩
  · unfold Ctx.enforceTokenLimit
    split
    · rfl
    · simp [hle]
  · have hlen : ¬ (h.length < 5) := by omega
    have hml : ¬ (Ctx.countTokens enc h ≤ Ctx.MAX_TOKENS) := by omega
    have hdropb := countTokens_drop_computeSplit enc h
    unfold Ctx.enforceTokenLimit
    rw [if_neg hlen, if_neg hml]
    by_cases hsplit : Ctx.computeSplit enc h < 2
    · rw [if_pos hsplit]
      -- split is 0 or 1; in both cases the tail is within the target.
      have hcase : Ctx.computeSplit enc h = 0 ∨ Ctx.computeSplit enc h = 1 := by omega
      rcases hcase with h0 | h1
      · -- split = 0: the whole list fits in the target (so does its tail).
        rw [h0] at hdropb
        simp only [List.drop_zero] at hdropb
        have htail : Ctx.countTokens enc h.tail ≤ Ctx.countTokens enc h := by
          cases h with
          | nil => simp
          | cons m rest => simp [Ctx.countTokens]
        omega
      · -- split = 1: the tail is exactly the retained suffix.
        rw [h1] at hdropb
        have : h.tail = h.drop 1 := (List.drop_one h).symm
        rw [this]
        omega
    · rw [if_neg hsplit]
      unfold Ctx.summaryBudget
      cases hsum : summarize (h.take (Ctx.computeSplit enc h)) with
      | none => simpa using hdropb.trans (by omega)
      | some s =>
        simp only [Ctx.countTokens, List.map_cons, List.sum_cons]
        have : Ctx.countTokens enc (h.drop (Ctx.computeSplit enc h)) ≤ Ctx.TARGET_TOKENS :=
          hdropb
        simp only [Ctx.countTokens] at this
        omega

end ClaimC2

/-- Witness for C2 (amended): five 600-character messages (3020 tokens
under the length tokenizer) get compacted to within the target budget
plus the summary message. -/
theorem C2_token_budget_witness :
    Ctx.countTokens String.length
        (Ctx.enforceTokenLimit String.length (fun _ => some "kratko")
          (List.replicate 5
            { role := "user", content := String.mk (List.replicate 600 'a') })) ≤
      Ctx.TARGET_TOKENS + Ctx.summaryBudget String.length (fun _ => some "kratko")
        (List.replicate 5
          { role := "user", content := String.mk (List.replicate 600 'a') }) := by
  refine (C2_token_budget_amended String.length (fun _ => some "kratko")).2.2
    (List.replicate 5 { role := "user", content := String.mk (List.replicate 600 'a') })
    (by rw [List.length_replicate]) ?_
  have hlen : (String.mk (List.replicate 600 'a')).length = 600 := by
    show (List.replicate 600 'a').length = 600
    rw [List.length_replicate]
  have hcnt : Ctx.countTokens String.length
      (List.replicate 5
        { role := "user", content := String.mk (List.replicate 600 'a') }) = 3020 := by
    simp only [Ctx.countTokens, List.map_replicate, List.sum_replicate, smul_eq_mul,
      Ctx.msgTokens, Ctx.msgText, hlen]
  rw [hcnt]
  norm_num [Ctx.MAX_TOKENS]

/-- **C2 counterexample.** The claim that `tokens(history(s)) ≤
MAX_TOKENS` holds after *every* completed `add_message` is false: a
single 2600-character write into an empty history (2604 tokens counted
with the 4-token overhead, under a tokenizer charging one token per
character) returns with the history over the 2500-token budget, because
`_enforce_token_limit` returns immediately for lists shorter than 5
entries without looking at tokens at all. -/
theorem C2_token_budget_counterexample :
    Ctx.MAX_TOKENS <
      Ctx.countTokens String.length
        (Ctx.addMessage String.length (fun _ => none) [] "user"
          (some (String.mk (List.replicate 2600 'a'))) none none none) := by
  have hlen : (String.mk (List.replicate 2600 'a')).length = 2600 := by
    show (List.replicate 2600 'a').length = 2600
    rw [List.length_replicate]
  have hmsg : Ctx.addMessage String.length (fun _ => none) [] "user"
      (some (String.mk (List.replicate 2600 'a'))) none none none =
      [{ role := "user", content := String.mk (List.replicate 2600 'a') }] := by
    unfold Ctx.addMessage Ctx.mkStoredMsg Ctx.enforceTokenLimit
    simp only [Option.getD_some, hlen, List.nil_append, List.length_cons,
      List.length_nil]
    norm_num [Ctx.MAX_CONTENT_SIZE]
  rw [hmsg]
  simp only [Ctx.countTokens, List.map_cons, List.map_nil, List.sum_cons,
    List.sum_nil, Ctx.msgTokens, Ctx.msgText, hlen]
  norm_num [Ctx.MAX_TOKENS]





section ClaimC8

/-- **C8 (amended).** An embedding failure during a registry load does
**not** skip just the offending operation: the exception propagates out
of `_parse_and_embed`, `load_swagger` catches it, and the atomic swap
never happens — the registry keeps its previous snapshot wholesale, and
no operation of the new document (not even the unaffected ones) is
added. -/
theorem C8_embed_failure_amended (embed : String → Except Unit JsonVal)
    (hash : String → String) (spec : Reg.SpecDoc) (st : Reg.RegState)
    (c' : Reg.Cache) (n : Nat)
    (hfail : Reg.parseAndEmbed embed hash spec st.cache = .failed c' n) :
    (Reg.loadSwagger embed hash spec st).1.reg = st.reg ∧
    (Reg.loadSwagger embed hash spec st).1.isReady = st.isReady := by
  unfold Reg.loadSwagger
  rw [hfail]
  exact ⟨rfl, rfl⟩

/-- Concrete two-operation document for the C8 scenarios: the embedding
service fails exactly on `op_a`'s description. -/
def demoOpA : Reg.Operation :=
  { operationId := some "op_a", summary := "alpha", description := "",
    parameters := [], bodyProps := [], bodyRequired := [] }

def demoOpB : Reg.Operation :=
  { operationId := some "op_b", summary := "beta", description := "",
    parameters := [], bodyProps := [], bodyRequired := [] }

def demoSpec : Reg.SpecDoc :=
  { paths := [("/a", [("get", demoOpA)]), ("/b", [("get", demoOpB)])] }

def c8embed : String → Except Unit JsonVal :=
  fun s => if s = "alpha " then .error () else .ok (.arr [])

def c8oldDef : Reg.ToolDef :=
  { path := "/old", method := "get", description := "d",
    openaiSchema := { name := "old_op", description := "d", properties := [], required := [] },
    operationId := "old_op" }

def c8oldState : Reg.RegState :=
  { reg := { toolsMap := [("old_op", c8oldDef)], toolsVectors := [.arr []],
             toolsNames := ["old_op"] },
    isReady := true, cache := fun _ => none }

def demoFreshState : Reg.RegState :=
  { reg := { toolsMap := [], toolsVectors := [], toolsNames := [] },
    isReady := false, cache := fun _ => none }

/-- Witness for C8 (amended): loading the failing two-operation document
over a concrete non-empty old registry leaves the old snapshot in
place. -/
theorem C8_embed_failure_witness :
    (Reg.loadSwagger c8embed (fun s => s) demoSpec c8oldState).1.reg.toolsNames =
      ["old_op"] := by
  have h := C8_embed_failure_amended c8embed (fun s => s) demoSpec c8oldState _ 1 rfl
  rw [h.1]
  rfl

/-- **C8 counterexample.** With the embedding service failing on
operation `op_a` of a fresh two-operation document `{op_a, op_b}`, the
resulting registry does **not** contain the unaffected operation
`op_b` (the whole load was aborted), contradicting "every other
operation … is still present and remains retrievable". -/
theorem C8_embed_failure_counterexample :
    Reg.dictGet
      (Reg.loadSwagger c8embed (fun s => s) demoSpec demoFreshState).1.reg.toolsMap
      "op_b" = none := by
  rfl

end ClaimC8

section ClaimC9

/-- The `tools_map` built by a parse run: successive dict inserts. -/
def Reg.insertAllOps (m : List (String × Reg.ToolDef))
    (ops : List (String × String × Reg.Operation)) : List (String × Reg.ToolDef) :=
  ops.foldl (fun acc pmd => Reg.dictInsert acc (Reg.opIdOf pmd.1 pmd.2.1 pmd.2.2)
    (Reg.toolDefOf pmd.1 pmd.2.1 pmd.2.2)) m

/-- The `tools_names` a parse run appends. -/
def Reg.namesOfOps (ops : List (String × String × Reg.Operation)) : List String :=
  ops.map (fun pmd => Reg.opIdOf pmd.1 pmd.2.1 pmd.2.2)

/-- The vectors a parse run appends, read off a cache containing them. -/
def Reg.cachedVecs (c : Reg.Cache) (hash : String → String)
    (ops : List (String × String × Reg.Operation)) : List JsonVal :=
  ops.map (fun pmd => (c (Reg.toolKeyOf hash pmd.1 pmd.2.1 pmd.2.2)).getD (.arr []))

/-- `_get_embedding` only ever writes to a key that is currently absent:
every present cache entry survives with its value. -/
theorem Reg.getEmbedding_mono (embed : String → Except Unit JsonVal)
    (hash : String → String) (c : Reg.Cache) (text : String) :
    ∀ k w, c k = some w → ((Reg.getEmbedding embed hash c text).2.1) k = some w := by
  intro k w hw
  dsimp only [Reg.getEmbedding]
  cases hq : c ("query_embed:" ++ hash text) with
  | some v => exact hw
  | none =>
    cases he : embed (Reg.replaceNewlines text) with
    | error e => exact hw
    | ok v =>
      show (if k = "query_embed:" ++ hash text then some v else c k) = some w
      by_cases hk : k = "query_embed:" ++ hash text
      · rw [hk, hq] at hw; cases hw
      · rw [if_neg hk]; exact hw

/-- Writing a vector at a key absent from a base cache preserves every
entry of the base cache through any intermediate monotone step. -/
theorem Reg.set_preserves_of_base_none (cbase c' : Reg.Cache) (k0 : String) (v : JsonVal)
    (h0 : cbase k0 = none) (hmono : ∀ k w, cbase k = some w → c' k = some w) :
    ∀ k w, cbase k = some w → (c'.set k0 v) k = some w := by
  intro k w hw
  by_cases hk : k = k0
  · rw [hk, h0] at hw; cases hw
  · show (if k = k0 then some v else c' k) = some w
    rw [if_neg hk]
    exact hmono k w hw

/-- Characterization of a successful `_parse_and_embed` run: the cache
only grows (present entries keep their values), the three structures are
the pure fold/map of the operation list, each operation's vector is the
one under its `tool_embedding:` key in the **final** cache, and every
operation's key is present in the final cache. -/
theorem Reg.parseOps_ok_spec (embed : String → Except Unit JsonVal)
    (hash : String → String) :
    ∀ (ops : List (String × String × Reg.Operation)) (acc res : Reg.ParseAcc),
      Reg.parseOps embed hash ops acc = .ok res →
      (∀ k v, acc.cache k = some v → res.cache k = some v) ∧
      res.map = Reg.insertAllOps acc.map ops ∧
      res.names = acc.names ++ Reg.namesOfOps ops ∧
      res.vectors = acc.vectors ++ Reg.cachedVecs res.cache hash ops ∧
      (∀ pmd ∈ ops, (res.cache (Reg.toolKeyOf hash pmd.1 pmd.2.1 pmd.2.2)).isSome) := by
  intro ops
  induction ops with
  | nil =>
    intro acc res hp
    simp only [Reg.parseOps, Reg.ParseRes.ok.injEq] at hp
    subst hp
    exact ⟨fun k v h => h, rfl, by simp [Reg.namesOfOps],
      by simp [Reg.cachedVecs], by simp⟩
  | cons hd rest ih =>
    obtain ⟨path, method, details⟩ := hd
    intro acc res hp
    simp only [Reg.parseOps] at hp
    cases hck : acc.cache (Reg.toolKeyOf hash path method details) with
    | some v =>
      rw [hck] at hp
      have IH := ih (Reg.recordOp acc path method details v) res hp
      have hcache : (Reg.recordOp acc path method details v).cache = acc.cache := rfl
      have hmono : ∀ k w, acc.cache k = some w → res.cache k = some w := by
        intro k w hw
        exact IH.1 k w (by rw [hcache]; exact hw)
      have hkey : res.cache (Reg.toolKeyOf hash path method details) = some v :=
        hmono _ v hck
      refine ⟨hmono, ?_, ?_, ?_, ?_⟩
      · rw [IH.2.1]
        simp [Reg.insertAllOps, Reg.recordOp]
      · rw [IH.2.2.1]
        simp [Reg.namesOfOps, Reg.recordOp]
      · rw [IH.2.2.2.1]
        simp only [Reg.cachedVecs, List.map_cons, hkey, Option.getD_some, Reg.recordOp]
        simp [Reg.cachedVecs]
      · intro pmd hmem
        rcases List.mem_cons.mp hmem with heq | hmem'
        · subst heq; simp [hkey]
        · exact IH.2.2.2.2 pmd hmem'
    | none =>
      rw [hck] at hp
      rcases hge : Reg.getEmbedding embed hash acc.cache (Reg.descOf details) with ⟨ev, c', n⟩
      rw [hge] at hp
      cases ev with
      | error e => simp at hp
      | ok v =>
        have IH := ih (Reg.recordOp
          ⟨acc.map, acc.vectors, acc.names,
            c'.set (Reg.toolKeyOf hash path method details) v, acc.calls + n⟩
          path method details v) res hp
        have hc' : ∀ k w, acc.cache k = some w → c' k = some w := by
          intro k w hw
          have := Reg.getEmbedding_mono embed hash acc.cache (Reg.descOf details) k w hw
          rw [hge] at this
          exact this
        have hmono : ∀ k w, acc.cache k = some w → res.cache k = some w := by
          intro k w hw
          exact IH.1 k w (Reg.set_preserves_of_base_none acc.cache c' _ v hck hc' k w hw)
        have hkeyset : (c'.set (Reg.toolKeyOf hash path method details) v)
            (Reg.toolKeyOf hash path method details) = some v := by
          simp [Reg.Cache.set]
        have hkey : res.cache (Reg.toolKeyOf hash path method details) = some v :=
          IH.1 _ v hkeyset
        refine ⟨hmono, ?_, ?_, ?_, ?_⟩
        · rw [IH.2.1]
          simp [Reg.insertAllOps, Reg.recordOp]
        · rw [IH.2.2.1]
          simp [Reg.namesOfOps, Reg.recordOp, List.append_assoc]
        · rw [IH.2.2.2.1]
          simp only [Reg.recordOp, Reg.cachedVecs, List.map_cons, hkey, Option.getD_some]
          simp [List.append_assoc]
        · intro pmd hmem
          rcases List.mem_cons.mp hmem with heq | hmem'
          · subst heq; simp [hkey]
          · exact IH.2.2.2.2 pmd hmem'


/-- When every operation's `tool_embedding:` key is already cached, the
parse loop succeeds purely from the cache: no embedding-service call, no
cache write, and the structures are read off the cache. -/
theorem Reg.parseOps_allhit (embed : String → Except Unit JsonVal)
    (hash : String → String) :
    ∀ (ops : List (String × String × Reg.Operation)) (acc : Reg.ParseAcc),
      (∀ pmd ∈ ops, (acc.cache (Reg.toolKeyOf hash pmd.1 pmd.2.1 pmd.2.2)).isSome) →
      Reg.parseOps embed hash ops acc = .ok
        { map := Reg.insertAllOps acc.map ops,
          vectors := acc.vectors ++ Reg.cachedVecs acc.cache hash ops,
          names := acc.names ++ Reg.namesOfOps ops,
          cache := acc.cache, calls := acc.calls } := by
  intro ops
  induction ops with
  | nil =>
    intro acc hhit
    simp [Reg.parseOps, Reg.insertAllOps, Reg.cachedVecs, Reg.namesOfOps]
  | cons hd rest ih =>
    obtain ⟨path, method, details⟩ := hd
    intro acc hhit
    have hhd := hhit (path, method, details) (List.mem_cons_self _ _)
    obtain ⟨v, hv⟩ := Option.isSome_iff_exists.mp hhd
    simp only [Reg.parseOps]
    rw [hv]
    dsimp only
    have hrest : ∀ pmd ∈ rest,
        ((Reg.recordOp acc path method details v).cache
          (Reg.toolKeyOf hash pmd.1 pmd.2.1 pmd.2.2)).isSome := by
      intro pmd hm
      exact hhit pmd (List.mem_cons_of_mem _ hm)
    rw [ih (Reg.recordOp acc path method details v) hrest]
    have hmap : Reg.insertAllOps (Reg.recordOp acc path method details v).map rest =
        Reg.insertAllOps acc.map ((path, method, details) :: rest) := by
      simp [Reg.insertAllOps, Reg.recordOp]
    have hnames : (Reg.recordOp acc path method details v).names ++ Reg.namesOfOps rest =
        acc.names ++ Reg.namesOfOps ((path, method, details) :: rest) := by
      simp [Reg.namesOfOps, Reg.recordOp, List.append_assoc]
    have hvecs : (Reg.recordOp acc path method details v).vectors ++
        Reg.cachedVecs (Reg.recordOp acc path method details v).cache hash rest =
        acc.vectors ++ Reg.cachedVecs acc.cache hash ((path, method, details) :: rest) := by
      simp only [Reg.recordOp, Reg.cachedVecs, List.map_cons, hv, Option.getD_some]
      simp [List.append_assoc]
    simp only [hmap, hnames, hvecs]
    rfl

/-- **C9.** Loading the same OpenAPI document twice yields the same
registry as loading it once: given that the first load's parse succeeded,
the second `load_swagger` returns the identical registry state (same
`op_id → definition` map, names list and vectors list, and same cache)
and makes **zero** embedding-service calls — every operation's unchanged
`content_hash` hits the `tool_embedding:<op_id>:<content_hash>` cache
entry written (or reused) by the first load. -/
theorem C9_load_idempotent (embed : String → Except Unit JsonVal)
    (hash : String → String) (spec : Reg.SpecDoc) (st : Reg.RegState)
    (acc : Reg.ParseAcc)
    (h : Reg.parseAndEmbed embed hash spec st.cache = .ok acc) :
    Reg.loadSwagger embed hash spec (Reg.loadSwagger embed hash spec st).1 =
      ((Reg.loadSwagger embed hash spec st).1, 0) := by
  have hspec := Reg.parseOps_ok_spec embed hash (Reg.opsOf spec)
    { map := [], vectors := [], names := [], cache := st.cache, calls := 0 } acc h
  have hsecond : Reg.parseAndEmbed embed hash spec acc.cache =
      .ok { map := acc.map, vectors := acc.vectors, names := acc.names,
            cache := acc.cache, calls := 0 } := by
    unfold Reg.parseAndEmbed
    rw [Reg.parseOps_allhit embed hash (Reg.opsOf spec)
      { map := [], vectors := [], names := [], cache := acc.cache, calls := 0 }
      (fun pmd hm => hspec.2.2.2.2 pmd hm)]
    have hm : Reg.insertAllOps [] (Reg.opsOf spec) = acc.map := hspec.2.1.symm
    have hn : Reg.namesOfOps (Reg.opsOf spec) = acc.names := by
      have := hspec.2.2.1
      simpa using this.symm
    have hv : Reg.cachedVecs acc.cache hash (Reg.opsOf spec) = acc.vectors := by
      have := hspec.2.2.2.1
      simpa using this.symm
    simp [hm, hn, hv]
  unfold Reg.loadSwagger
  rw [h]
  simp only []
  rw [hsecond]

/-- Total embedding service used for the C9 witness. -/
def c9embed : String → Except Unit JsonVal := fun _ => .ok (.arr [])

/-- Witness for C9: loading the concrete two-operation document twice
from an empty cache returns the same registry state and makes zero
embedding calls the second time. -/
theorem C9_load_idempotent_witness :
    Reg.loadSwagger c9embed (fun s => s) demoSpec
        (Reg.loadSwagger c9embed (fun s => s) demoSpec demoFreshState).1 =
      ((Reg.loadSwagger c9embed (fun s => s) demoSpec demoFreshState).1, 0) := by
  exact C9_load_idempotent c9embed (fun s => s) demoSpec demoFreshState _ rfl

end ClaimC9
